import Mathlib

/-!
Verification of the option-data-collector core: the expiry target calculator
and resolver from fetcher.py, and the snapshot storage lifecycle from
storage.py, shallowly embedded in Lean.

Conventions of the embedding:
* Python `datetime.date` values become the `Date` structure below; Python's
  `date` ordinal arithmetic (`toordinal`, subtraction in days) becomes
  `rataDie`, the proleptic-Gregorian day number with `0001-01-01 = 1`,
  which is exactly `date.toordinal`.
* `strftime("%d%b%y").upper()` becomes `to_deribit_expiry`; the
  `strptime(s, "%d%b%y")` parse (greedy 1-2 digit day, case-insensitive
  three-letter month, exactly two-digit year with the 69/00 century pivot,
  whole string consumed, day-of-month validated) becomes
  `parseDeribitExpiry`, returning `none` where Python raises.
* SQLite tables become Lean lists of rows; the `UNIQUE(timestamp,
  instrument)` and `CHECK(type IN ('call','put'))` constraints of the live
  table become the `insertOK` gate, and a constraint violation (pandas
  `to_sql` raising, the transaction rolled back) becomes `Except.error`.
  The program's empty batch, `pd.DataFrame([])`, is a DataFrame with no
  columns, on which the writer's `df["Expiry"]` access raises
  `KeyError: 'Expiry'`; the empty row list is modelled as that error.
* Numeric payload fields (spot, strike, OI, Greeks, IV) are modelled as
  `Int`; no claim performs arithmetic on them, only equality and order
  comparisons, which Python floats decide the same way on these inputs.
-/

/-- A calendar date, as Python's `datetime.date` (proleptic Gregorian). -/
structure Date where
  year : Nat
  month : Nat
  day : Nat
deriving DecidableEq, Repr

/-- Gregorian leap-year test, as `calendar.isleap` / `datetime`. -/
def isLeap (y : Nat) : Bool :=
  y % 4 == 0 && (y % 100 != 0 || y % 400 == 0)

/-- Number of days in a month, as `calendar.monthrange(y, m)[1]`. -/
def daysInMonth (y m : Nat) : Nat :=
  match m with
  | 1 => 31 | 2 => if isLeap y then 29 else 28 | 3 => 31
  | 4 => 30 | 5 => 31 | 6 => 30
  | 7 => 31 | 8 => 31 | 9 => 30
  | 10 => 31 | 11 => 30 | 12 => 31
  | _ => 0

/-- A structurally valid `datetime.date` value. -/
def validDate (d : Date) : Prop :=
  1 ≤ d.month ∧ d.month ≤ 12 ∧ 1 ≤ d.day ∧ d.day ≤ daysInMonth d.year d.month

instance (d : Date) : Decidable (validDate d) := by
  unfold validDate; infer_instance

/-- Days elapsed before the first of month `m` in year `y`. -/
def daysBeforeMonth (y m : Nat) : Nat :=
  (match m with
   | 1 => 0 | 2 => 31 | 3 => 59 | 4 => 90 | 5 => 120 | 6 => 151
   | 7 => 181 | 8 => 212 | 9 => 243 | 10 => 273 | 11 => 304 | 12 => 334
   | _ => 0)
  + (if 3 ≤ m ∧ isLeap y then 1 else 0)

/-- Proleptic-Gregorian day number, equal to Python's `date.toordinal`
(`rataDie ⟨1,1,1⟩ = 1`).  Python's `(a - b).days` is
`(rataDie a : Int) - rataDie b`. -/
def rataDie (d : Date) : Nat :=
  365 * (d.year - 1) + (d.year - 1) / 4 - (d.year - 1) / 100 + (d.year - 1) / 400
    + daysBeforeMonth d.year d.month + d.day

/-- `abs((a - b).days)` for two Python dates. -/
def distDays (a b : Date) : Nat :=
  ((rataDie a : Int) - (rataDie b : Int)).natAbs

/-- `date.weekday()`: Monday = 0 … Sunday = 6.  0001-01-01 was a Monday. -/
def weekday (d : Date) : Nat :=
  (rataDie d + 6) % 7

/-- The successor date (`d + timedelta(days=1)`). -/
def nextDay (d : Date) : Date :=
  if d.day < daysInMonth d.year d.month then ⟨d.year, d.month, d.day + 1⟩
  else if d.month < 12 then ⟨d.year, d.month + 1, 1⟩
  else ⟨d.year + 1, 1, 1⟩

/-- `d + timedelta(days=n)` for a non-negative count. -/
def addDays (d : Date) : Nat → Date
  | 0 => d
  | n + 1 => nextDay (addDays d n)

/-- The decimal digit character for `n < 10` (zero-padded formatting). -/
def digitChar (n : Nat) : Char :=
  match n with
  | 0 => '0' | 1 => '1' | 2 => '2' | 3 => '3' | 4 => '4'
  | 5 => '5' | 6 => '6' | 7 => '7' | 8 => '8' | _ => '9'

/-- Numeric value of a digit character. -/
def digitVal (c : Char) : Nat := c.toNat - 48

/-- Two-digit zero-padded decimal rendering (`%d` / `%y`). -/
def pad2 (n : Nat) : List Char :=
  [digitChar (n / 10), digitChar (n % 10)]

/-- Four-digit zero-padded decimal rendering (ISO year). -/
def pad4 (n : Nat) : List Char :=
  [digitChar (n / 1000 % 10), digitChar (n / 100 % 10),
   digitChar (n / 10 % 10), digitChar (n % 10)]

/-- The upper-cased English month abbreviation (`%b` then `.upper()`). -/
def monthAbbrev (m : Nat) : List Char :=
  match m with
  | 1 => ['J', 'A', 'N'] | 2 => ['F', 'E', 'B'] | 3 => ['M', 'A', 'R']
  | 4 => ['A', 'P', 'R'] | 5 => ['M', 'A', 'Y'] | 6 => ['J', 'U', 'N']
  | 7 => ['J', 'U', 'L'] | 8 => ['A', 'U', 'G'] | 9 => ['S', 'E', 'P']
  | 10 => ['O', 'C', 'T'] | 11 => ['N', 'O', 'V'] | 12 => ['D', 'E', 'C']
  | _ => []

/-- Character-level body of `dt.strftime("%d%b%y").upper()`. -/
def toDeribitChars (dt : Date) : List Char :=
  pad2 dt.day ++ monthAbbrev dt.month ++ pad2 (dt.year % 100)

/-- fetcher.py `to_deribit_expiry`: convert date to `DDMMMYY`. -/
def to_deribit_expiry (dt : Date) : String :=
  String.mk (toDeribitChars dt)

/-- Month number of an (upper-cased) three-letter abbreviation, as matched
by `strptime`'s `%b` (which is case-insensitive; callers upper-case). -/
def monthOfAbbrev (a b c : Char) : Option Nat :=
  match a, b, c with
  | 'J', 'A', 'N' => some 1 | 'F', 'E', 'B' => some 2 | 'M', 'A', 'R' => some 3
  | 'A', 'P', 'R' => some 4 | 'M', 'A', 'Y' => some 5 | 'J', 'U', 'N' => some 6
  | 'J', 'U', 'L' => some 7 | 'A', 'U', 'G' => some 8 | 'S', 'E', 'P' => some 9
  | 'O', 'C', 'T' => some 10 | 'N', 'O', 'V' => some 11 | 'D', 'E', 'C' => some 12
  | _, _, _ => none

/-- Tail of `strptime(s, "%d%b%y")` after the day: a three-letter month,
then exactly two year digits ending the string (`%y` is `\d\d`), the
69/00 two-digit-year pivot, and `datetime.date` day-of-month validation. -/
def parseMonthYear (dayv : Nat) (l : List Char) : Option Date :=
  match l with
  | a :: b :: c :: rest =>
    match monthOfAbbrev a.toUpper b.toUpper c.toUpper with
    | none => none
    | some m =>
      match rest with
      | [y1, y2] =>
        if y1.isDigit && y2.isDigit then
          let yy := digitVal y1 * 10 + digitVal y2
          let y := if yy ≤ 68 then 2000 + yy else 1900 + yy
          if 1 ≤ dayv ∧ dayv ≤ daysInMonth y m then some ⟨y, m, dayv⟩ else none
        else none
      | _ => none
  | _ => none

/-- `strptime(s, "%d%b%y")` on a character list: a greedy one-or-two digit
day, then month and year.  `none` wherever Python raises. -/
def parseExpiryChars (l : List Char) : Option Date :=
  match l with
  | c1 :: c2 :: rest =>
    if c1.isDigit then
      if c2.isDigit then parseMonthYear (digitVal c1 * 10 + digitVal c2) rest
      else parseMonthYear (digitVal c1) (c2 :: rest)
    else none
  | _ => none

/-- `datetime.strptime(s, "%d%b%y").date()`, `none` where Python raises. -/
def parseDeribitExpiry (s : String) : Option Date :=
  parseExpiryChars s.toList

/-- `d.isoformat()`: `YYYY-MM-DD`. -/
def isoOfDate (d : Date) : String :=
  String.mk (pad4 d.year ++ '-' :: pad2 d.month ++ '-' :: pad2 d.day)

/-- The deterministic derivation of a stored row's `expiry_iso` from its
market expiry code (the lambda inside `save_snapshot`). -/
def expiryIsoOf (e : String) : Option String :=
  (parseDeribitExpiry e).map isoOfDate

/-- A ranking candidate of `select_best_expiry`: the Python tuple
`(delta_days, -oi, expiry)`. -/
abbrev Cand := Nat × Int × String

/-- Python string `<` on character lists: lexicographic by code point,
with a proper prefix smaller than its extension. -/
def charsLt : List Char → List Char → Bool
  | _, [] => false
  | [], _ :: _ => true
  | a :: as, b :: bs =>
    if a.toNat < b.toNat then true
    else if b.toNat < a.toNat then false
    else charsLt as bs

/-- Python string `<` (code-point lexicographic order). -/
def strLt (a b : String) : Bool :=
  charsLt a.toList b.toList

/-- Python tuple `<=` on candidates: lexicographic on
(distance, negated OI, expiry string by code points). -/
def candLE (a b : Cand) : Bool :=
  decide (a.1 < b.1) ||
    (decide (a.1 = b.1) &&
      (decide (a.2.1 < b.2.1) ||
        (decide (a.2.1 = b.2.1) &&
          (strLt a.2.2 b.2.2 || decide (a.2.2 = b.2.2)))))

/-- Insert into a `candLE`-sorted list, keeping it sorted. -/
def insertCand (c : Cand) : List Cand → List Cand
  | [] => [c]
  | x :: xs => if candLE c x then c :: x :: xs else x :: insertCand c xs

/-- Sort candidates ascending by the Python tuple order; since `candLE` is
a total order (antisymmetric up to equality of the tuples), this list is
the one `list.sort()` produces. -/
def sortCands : List Cand → List Cand
  | [] => []
  | x :: xs => insertCand x (sortCands xs)

/-- The loop body of `select_best_expiry`: one listed map item either
becomes the tuple `(delta_days, -oi, expiry)` or, when its key is
unparsable, is skipped (`except: continue`). -/
def candOf (target_dt : Date) (p : String × Int) : Option Cand :=
  match parseDeribitExpiry p.1 with
  | none => none
  | some dt => some (distDays dt target_dt, -p.2, p.1)

/-- fetcher.py `select_best_expiry`: parse the target, build the
`candidates` tuple list from the parsable keys of the listed map (a
Python dict, modelled as its item list), sort, take the first. -/
def select_best_expiry (target_expiry : String) (expiry_oi_map : List (String × Int)) :
    Option String :=
  match parseDeribitExpiry target_expiry with
  | none => none
  | some target_dt =>
    match sortCands (expiry_oi_map.filterMap (candOf target_dt)) with
    | [] => none
    | c :: _ => some c.2.2

/-- A UTC wall-clock instant: `datetime.now(timezone.utc)` as far as
`calculate_target_expiries` inspects it (its date and time of day). -/
structure DateTimeUTC where
  date : Date
  hour : Nat
  minute : Nat
deriving DecidableEq, Repr

/-- fetcher.py `calculate_target_expiries`.  On a Friday
(`days_until_friday == 0`) the source executes `settlement_time = time(8, 0)`
where `time` is the imported `time` module — `datetime.time` was never
imported — so Python raises `TypeError: 'module' object is not callable`
before any comparison; that raise is the `Except.error` branch.  Otherwise
it returns the four targets, formatted, in dict insertion order. -/
def calculate_target_expiries (now : DateTimeUTC) : Except String (List String) :=
  let today := now.date
  let days_until_friday := (4 + 7 - weekday today) % 7
  if days_until_friday == 0 then
    .error "TypeError: 'module' object is not callable"
  else
    let target_friday := addDays today days_until_friday
    let month_end : Date := ⟨today.year, today.month, daysInMonth today.year today.month⟩
    let p := if today.month == 12 then (today.year + 1, 1) else (today.year, today.month + 1)
    let next_month_end : Date := ⟨p.1, p.2, daysInMonth p.1 p.2⟩
    let q := ((today.month - 1) / 3 + 1) * 3
    let quarter_end : Date := ⟨today.year, q, daysInMonth today.year q⟩
    .ok ([target_friday, month_end, next_month_end, quarter_end].map to_deribit_expiry)

/-- The near target (upcoming Friday) on a non-Friday date. -/
def nearTarget (today : Date) : Date :=
  addDays today ((4 + 7 - weekday today) % 7)

/-- Last day of the current month. -/
def monthEndTarget (today : Date) : Date :=
  ⟨today.year, today.month, daysInMonth today.year today.month⟩

/-- Last day of the next month, wrapping December to January. -/
def nextMonthEndTarget (today : Date) : Date :=
  let p := if today.month == 12 then (today.year + 1, 1) else (today.year, today.month + 1)
  ⟨p.1, p.2, daysInMonth p.1 p.2⟩

/-- Last day of the current calendar quarter. -/
def quarterEndTarget (today : Date) : Date :=
  let q := ((today.month - 1) / 3 + 1) * 3
  ⟨today.year, q, daysInMonth today.year q⟩

/-- One row of the DataFrame built by `get_deribit_options` (column names
as in fetcher.py; the `Type` column is `TypeCol` since `Type` is a Lean
keyword). -/
structure FetchedRow where
  Expiry : String
  Instrument : String
  Strike : Int
  TypeCol : String
  OI : Int
  Delta : Int
  Gamma : Int
  Theta : Int
  Vega : Int
  IV : Int
deriving DecidableEq, Repr

/-- One row of the live table `oi_snapshots` (storage.py schema). -/
structure SnapshotRow where
  timestamp : String
  asset : String
  spot_price : Int
  expiry : String
  expiry_iso : String
  instrument : String
  strike : Int
  type : String
  oi : Int
  delta : Int
  gamma : Int
  theta : Int
  vega : Int
  iv : Int
deriving DecidableEq, Repr

/-- The key of the live table's `UNIQUE(timestamp, instrument)` constraint. -/
def pairKey (r : SnapshotRow) : String × String :=
  (r.timestamp, r.instrument)

/-- The live-partition invariant: `(timestamp, instrument)` pairs are
pairwise distinct. -/
def uniquePairs (l : List SnapshotRow) : Prop :=
  (l.map pairKey).Nodup

/-- Build one stored row from a fetched row, as `save_snapshot` does:
stamp the batch timestamp, asset and spot, derive `expiry_iso` by parsing
the `Expiry` code (`strptime` raising becomes `Except.error`). -/
def buildRow (asset : String) (spot_price : Int) (ts : String) (f : FetchedRow) :
    Except String SnapshotRow :=
  match parseDeribitExpiry f.Expiry with
  | none => .error "ValueError: time data does not match format %d%b%y"
  | some dt =>
    .ok { timestamp := ts, asset := asset, spot_price := spot_price,
          expiry := f.Expiry, expiry_iso := isoOfDate dt,
          instrument := f.Instrument, strike := f.Strike, type := f.TypeCol,
          oi := f.OI, delta := f.Delta, gamma := f.Gamma,
          theta := f.Theta, vega := f.Vega, iv := f.IV }

/-- Build the whole batch; the first failing row aborts the call. -/
def buildRows (asset : String) (spot_price : Int) (ts : String) :
    List FetchedRow → Except String (List SnapshotRow)
  | [] => .ok []
  | f :: fs =>
    match buildRow asset spot_price ts f, buildRows asset spot_price ts fs with
    | .ok r, .ok rs => .ok (r :: rs)
    | .error e, _ => .error e
    | _, .error e => .error e

/-- The live table's constraints checked by SQLite on insert:
`UNIQUE(timestamp, instrument)` against both the existing rows and the
batch itself, and `CHECK(type IN ('call','put'))`. -/
def insertOK (live rows : List SnapshotRow) : Bool :=
  (rows.map pairKey).Nodup
    && rows.all (fun r => !(live.any (fun l => pairKey l == pairKey r)))
    && rows.all (fun r => r.type == "call" || r.type == "put")

/-- storage.py `OptionStorage.save_snapshot` on the live table.  `ts` is
the single `datetime.utcnow().isoformat(timespec="milliseconds")` value
taken at the head of the call.  The program's empty batch is
`pd.DataFrame([])`, a DataFrame with no columns at all, so on an empty
row list the column access `df["Expiry"]` at the `expiry_iso` derivation
(storage.py line 122) raises `KeyError: 'Expiry'` before any insert —
the empty-list case is that raise.  A constraint violation makes pandas
`to_sql` raise inside the connection context, which rolls the transaction
back, so on every error path no row is persisted. -/
def save_snapshot (live : List SnapshotRow) (df : List FetchedRow)
    (asset : String) (spot_price : Int) (ts : String) :
    Except String (List SnapshotRow) :=
  match df with
  | [] => .error "KeyError: 'Expiry'"
  | _ :: _ =>
    match buildRows asset spot_price ts df with
    | .error e => .error e
    | .ok rows =>
      if insertOK live rows then .ok (live ++ rows)
      else .error "IntegrityError: UNIQUE constraint failed: oi_snapshots.timestamp, oi_snapshots.instrument"

/-- The row-selection predicate of `maintain_db` phase 1:
`expiry_iso < today_str OR timestamp < cutoff_ts` (SQLite TEXT comparison
of ASCII ISO strings is code-point order, i.e. `String.lt`). -/
def expiredPred (today_str cutoff_ts : String) (r : SnapshotRow) : Bool :=
  decide (r.expiry_iso < today_str) || decide (r.timestamp < cutoff_ts)

/-- Result of one retention sweep: the two partitions afterwards and the
reported counts (`len(to_move_df)` and `cursor.rowcount`). -/
structure SweepResult where
  live : List SnapshotRow
  archive : List SnapshotRow
  moved : Nat
  purged : Nat
deriving Repr

/-- storage.py `OptionStorage.maintain_db` at a fixed wall clock:
`today_str`, `cutoff_ts` and `archive_limit` are the three strings the
source derives from `datetime.now(timezone.utc)` and the two retention
windows.  Phase 1 copies the selected live rows to the archive and
deletes them from live; phase 2 deletes archive rows older than the
archive horizon.  (Phase 3, VACUUM, changes no row.) -/
def maintain_db (today_str cutoff_ts archive_limit : String)
    (live archive : List SnapshotRow) : SweepResult :=
  let toMove := live.filter (expiredPred today_str cutoff_ts)
  let live2 := live.filter (fun r => !(expiredPred today_str cutoff_ts r))
  let archive1 := archive ++ toMove
  let purgedRows := archive1.filter (fun r => decide (r.timestamp < archive_limit))
  let archive2 := archive1.filter (fun r => !(decide (r.timestamp < archive_limit) : Bool))
  { live := live2, archive := archive2,
    moved := toMove.length, purged := purgedRows.length }

/-- The spec's ranking preorder for C1, from its words: prefer smaller
distance to the target, then larger aggregate open interest. -/
def rankLE (t : Date) (a b : Date × Int) : Prop :=
  distDays a.1 t < distDays b.1 t ∨
    (distDays a.1 t = distDays b.1 t ∧ b.2 ≤ a.2)

/-- A sample fetched row used by concrete witnesses. -/
def sampleFetched : FetchedRow :=
  { Expiry := "28NOV25", Instrument := "BTC-28NOV25-90000-C", Strike := 90000,
    TypeCol := "call", OI := 10, Delta := 1, Gamma := 0, Theta := 0, Vega := 0, IV := 55 }

/-- The stored row `buildRow` produces from `sampleFetched` at the sample
batch timestamp. -/
def sampleStored : SnapshotRow :=
  { timestamp := "2025-11-28T10:00:01.123", asset := "BTC", spot_price := 65000,
    expiry := "28NOV25", expiry_iso := "2025-11-28",
    instrument := "BTC-28NOV25-90000-C", strike := 90000, type := "call",
    oi := 10, delta := 1, gamma := 0, theta := 0, vega := 0, iv := 55 }

theorem digitChar_isDigit : ∀ n, n < 10 → (digitChar n).isDigit = true := by decide

theorem digitVal_digitChar : ∀ n, n < 10 → digitVal (digitChar n) = n := by decide

theorem daysInMonth_le_31 (y m : Nat) : daysInMonth y m ≤ 31 := by
  unfold daysInMonth
  split <;> first | omega | (split <;> omega)

theorem parseExpiryChars_pad2 (d : Nat) (hd : d < 100) (rest : List Char) :
    parseExpiryChars (pad2 d ++ rest) = parseMonthYear d rest := by
  have h1 : d / 10 < 10 := by omega
  have h2 : d % 10 < 10 := by omega
  have hd10 : d / 10 * 10 + d % 10 = d := by omega
  simp only [pad2, List.cons_append, List.nil_append, parseExpiryChars,
    digitChar_isDigit _ h1, digitChar_isDigit _ h2, if_true,
    digitVal_digitChar _ h1, digitVal_digitChar _ h2, hd10]

theorem parseMonthYear_eval (dayv m y : Nat) (a b c : Char)
    (habbrev : monthOfAbbrev a.toUpper b.toUpper c.toUpper = some m)
    (hy1 : 1969 ≤ y) (hy2 : y ≤ 2068) (hd1 : 1 ≤ dayv)
    (hd2 : dayv ≤ daysInMonth y m) :
    parseMonthYear dayv (a :: b :: c :: pad2 (y % 100)) = some ⟨y, m, dayv⟩ := by
  have h1 : y % 100 / 10 < 10 := by omega
  have h2 : y % 100 % 10 < 10 := by omega
  have hyy : y % 100 / 10 * 10 + y % 100 % 10 = y % 100 := by omega
  have hp : (if y % 100 ≤ 68 then 2000 + y % 100 else 1900 + y % 100) = y := by
    split <;> omega
  simp only [parseMonthYear, pad2, habbrev, digitChar_isDigit _ h1,
    digitChar_isDigit _ h2, Bool.and_self, if_true, digitVal_digitChar _ h1,
    digitVal_digitChar _ h2, hyy, hp]
  rw [if_pos ⟨hd1, hd2⟩]

/-- Structural round trip: formatting a valid date inside the `strptime`
two-digit-year pivot window and parsing it back is the identity. -/
theorem parse_toDeribit_roundtrip (dt : Date) (hv : validDate dt)
    (hy1 : 1969 ≤ dt.year) (hy2 : dt.year ≤ 2068) :
    parseDeribitExpiry (to_deribit_expiry dt) = some dt := by
  obtain ⟨y, m, d⟩ := dt
  obtain ⟨hm1, hm2, hd1, hd2⟩ := hv
  dsimp only at hm1 hm2 hd1 hd2 hy1 hy2
  have hd100 : d < 100 := by
    have := daysInMonth_le_31 y m
    omega
  show parseExpiryChars (toDeribitChars ⟨y, m, d⟩) = some ⟨y, m, d⟩
  unfold toDeribitChars
  rw [List.append_assoc, parseExpiryChars_pad2 d hd100]
  interval_cases m <;>
    exact parseMonthYear_eval d _ y _ _ _ rfl hy1 hy2 hd1 hd2

theorem char_eq_of_toNat_eq (a b : Char) (h : a.toNat = b.toNat) : a = b :=
  Char.ext (UInt32.ext h)

theorem charsLt_trichotomy : ∀ as bs : List Char,
    charsLt as bs = true ∨ as = bs ∨ charsLt bs as = true
  | [], [] => Or.inr (Or.inl rfl)
  | [], _ :: _ => Or.inl rfl
  | _ :: _, [] => Or.inr (Or.inr rfl)
  | a :: as, b :: bs => by
    rcases Nat.lt_trichotomy a.toNat b.toNat with h | h | h
    · left
      simp [charsLt, h]
    · have hab : a = b := char_eq_of_toNat_eq a b h
      subst hab
      rcases charsLt_trichotomy as bs with ih | ih | ih
      · left
        simp [charsLt, ih]
      · right
        left
        rw [ih]
      · right
        right
        simp [charsLt, ih]
    · right
      right
      simp [charsLt, h]

theorem charsLt_trans : ∀ as bs cs : List Char,
    charsLt as bs = true → charsLt bs cs = true → charsLt as cs = true
  | as, bs, [] => by
    intro _ h2
    cases bs <;> simp [charsLt] at h2
  | as, [], _ :: _ => by
    intro h1 _
    cases as <;> simp [charsLt] at h1
  | [], _ :: _, _ :: _ => by
    intro _ _
    rfl
  | a :: as, b :: bs, c :: cs => by
    intro h1 h2
    simp only [charsLt] at h1 h2 ⊢
    split at h1
    · rename_i hab
      split at h2
      · rename_i hbc
        rw [if_pos (Nat.lt_trans hab hbc)]
      · split at h2
        · cases h2
        · rename_i hbc hcb
          have hac : a.toNat < c.toNat := by omega
          rw [if_pos hac]
    · split at h1
      · cases h1
      · rename_i hab hba
        have hab2 : a = b := char_eq_of_toNat_eq a b (by omega)
        subst hab2
        split at h2
        · rename_i hac
          rw [if_pos hac]
        · split at h2
          · cases h2
          · rename_i hac hca
            rw [if_neg hac, if_neg hca]
            exact charsLt_trans as bs cs h1 h2

theorem strLt_trans (x y z : String) (h1 : strLt x y = true)
    (h2 : strLt y z = true) : strLt x z = true :=
  charsLt_trans x.toList y.toList z.toList h1 h2

theorem strLt_trichotomy (x y : String) :
    strLt x y = true ∨ x = y ∨ strLt y x = true := by
  rcases charsLt_trichotomy x.toList y.toList with h | h | h
  · exact Or.inl h
  · refine Or.inr (Or.inl ?_)
    obtain ⟨dx⟩ := x
    obtain ⟨dy⟩ := y
    exact congrArg String.mk (by simpa using h)
  · exact Or.inr (Or.inr h)

theorem candLE_refl (a : Cand) : candLE a a = true := by
  simp [candLE]

theorem candLE_trans (a b c : Cand) (h1 : candLE a b = true)
    (h2 : candLE b c = true) : candLE a c = true := by
  simp only [candLE, Bool.or_eq_true, Bool.and_eq_true, decide_eq_true_eq] at h1 h2 ⊢
  rcases h1 with h1 | ⟨e1, h1⟩ <;> rcases h2 with h2 | ⟨e2, h2⟩
  · exact Or.inl (by omega)
  · exact Or.inl (by omega)
  · exact Or.inl (by omega)
  · refine Or.inr ⟨by omega, ?_⟩
    rcases h1 with h1 | ⟨f1, h1⟩ <;> rcases h2 with h2 | ⟨f2, h2⟩
    · exact Or.inl (by omega)
    · exact Or.inl (by omega)
    · exact Or.inl (by omega)
    · refine Or.inr ⟨by omega, ?_⟩
      rcases h1 with h1 | h1 <;> rcases h2 with h2 | h2
      · exact Or.inl (strLt_trans _ _ _ h1 h2)
      · exact Or.inl (by rw [← h2]; exact h1)
      · exact Or.inl (by rw [h1]; exact h2)
      · exact Or.inr (h1.trans h2)

theorem candLE_total (a b : Cand) : candLE a b = true ∨ candLE b a = true := by
  simp only [candLE, Bool.or_eq_true, Bool.and_eq_true, decide_eq_true_eq]
  rcases Nat.lt_trichotomy a.1 b.1 with h | h | h
  · exact Or.inl (Or.inl h)
  · rcases Int.lt_trichotomy a.2.1 b.2.1 with h2 | h2 | h2
    · exact Or.inl (Or.inr ⟨h, Or.inl h2⟩)
    · rcases strLt_trichotomy a.2.2 b.2.2 with h3 | h3 | h3
      · exact Or.inl (Or.inr ⟨h, Or.inr ⟨h2, Or.inl h3⟩⟩)
      · exact Or.inl (Or.inr ⟨h, Or.inr ⟨h2, Or.inr h3⟩⟩)
      · exact Or.inr (Or.inr ⟨h.symm, Or.inr ⟨h2.symm, Or.inl h3⟩⟩)
    · exact Or.inr (Or.inr ⟨h.symm, Or.inl h2⟩)
  · exact Or.inr (Or.inl h)

theorem mem_insertCand (c x : Cand) (l : List Cand) :
    x ∈ insertCand c l ↔ x = c ∨ x ∈ l := by
  induction l with
  | nil => simp [insertCand]
  | cons y ys ih =>
    simp only [insertCand]
    split
    · simp [List.mem_cons]
    · simp only [List.mem_cons, ih]
      tauto

theorem insertCand_ne_nil (c : Cand) (l : List Cand) : insertCand c l ≠ [] := by
  cases l with
  | nil => simp [insertCand]
  | cons y ys =>
    simp only [insertCand]
    split <;> simp

/-- Sortedness with respect to the Python tuple order. -/
def SortedC (l : List Cand) : Prop :=
  l.Pairwise (fun a b => candLE a b = true)

theorem insertCand_sorted (c : Cand) (l : List Cand) (h : SortedC l) :
    SortedC (insertCand c l) := by
  induction l with
  | nil => simp [insertCand, SortedC]
  | cons y ys ih =>
    rcases List.pairwise_cons.mp h with ⟨hy, hys⟩
    simp only [insertCand]
    split
    case isTrue hcy =>
      refine List.pairwise_cons.mpr ⟨?_, h⟩
      intro z hz
      rcases List.mem_cons.mp hz with rfl | hz
      · exact hcy
      · exact candLE_trans _ _ _ hcy (hy z hz)
    case isFalse hcy =>
      refine List.pairwise_cons.mpr ⟨?_, ih hys⟩
      intro z hz
      rcases (mem_insertCand c z ys).mp hz with heq | hz
      · rw [heq]
        rcases candLE_total c y with h1 | h1
        · exact absurd h1 hcy
        · exact h1
      · exact hy z hz

theorem sortCands_sorted (l : List Cand) : SortedC (sortCands l) := by
  induction l with
  | nil => simp [sortCands, SortedC]
  | cons x xs ih => exact insertCand_sorted x (sortCands xs) ih

theorem mem_sortCands (x : Cand) (l : List Cand) :
    x ∈ sortCands l ↔ x ∈ l := by
  induction l with
  | nil => simp [sortCands]
  | cons y ys ih =>
    simp only [sortCands, mem_insertCand, List.mem_cons, ih]

theorem sortCands_eq_nil_iff (l : List Cand) : sortCands l = [] ↔ l = [] := by
  cases l with
  | nil => simp [sortCands]
  | cons y ys =>
    simp only [sortCands]
    constructor
    · intro h
      exact absurd h (insertCand_ne_nil y (sortCands ys))
    · intro h
      cases h

theorem candOf_eq_some (t : Date) (p : String × Int) (c : Cand) :
    candOf t p = some c ↔
      ∃ d, parseDeribitExpiry p.1 = some d ∧ c = (distDays d t, -p.2, p.1) := by
  unfold candOf
  cases hp : parseDeribitExpiry p.1 with
  | none => simp
  | some d => simp [eq_comm]

theorem candOf_eq_none (t : Date) (p : String × Int) :
    candOf t p = none ↔ parseDeribitExpiry p.1 = none := by
  unfold candOf
  cases hp : parseDeribitExpiry p.1 <;> simp

/-- Characterisation of a successful resolution: the returned code comes
from a parsable listed entry, and its candidate tuple is a `candLE` lower
bound of every parsable entry's tuple. -/
theorem select_best_spec (target : String) (listed : List (String × Int)) (e : String)
    (h : select_best_expiry target listed = some e) :
    ∃ t d oi, parseDeribitExpiry target = some t ∧ (e, oi) ∈ listed ∧
      parseDeribitExpiry e = some d ∧
      ∀ e2 oi2 d2, (e2, oi2) ∈ listed → parseDeribitExpiry e2 = some d2 →
        candLE (distDays d t, -oi, e) (distDays d2 t, -oi2, e2) = true := by
  unfold select_best_expiry at h
  split at h
  · cases h
  · rename_i t hp
    split at h
    · cases h
    · rename_i c rest hs
      have he : c.2.2 = e := Option.some.inj h
      have hc_mem : c ∈ listed.filterMap (candOf t) := by
        rw [← mem_sortCands, hs]
        exact List.mem_cons_self c rest
      rcases List.mem_filterMap.mp hc_mem with ⟨p, hp_mem, hp_eq⟩
      rcases (candOf_eq_some t p c).mp hp_eq with ⟨d, hpd, hceq⟩
      have he1 : p.1 = e := by rw [← he, hceq]
      have hc_shape : c = (distDays d t, -p.2, e) := by rw [hceq, he1]
      refine ⟨t, d, p.2, hp, ?_, ?_, ?_⟩
      · rw [← he1, Prod.mk.eta]
        exact hp_mem
      · rw [← he1]
        exact hpd
      · intro e2 oi2 d2 hmem2 hparse2
        have hc2_mem : ((distDays d2 t, -oi2, e2) : Cand) ∈ listed.filterMap (candOf t) :=
          List.mem_filterMap.mpr ⟨(e2, oi2), hmem2, by simp [candOf, hparse2]⟩
      
        rw [← hc_shape]
        have hsorted : SortedC (c :: rest) := by
          rw [← hs]
          exact sortCands_sorted _
        have : ((distDays d2 t, -oi2, e2) : Cand) ∈ c :: rest := by
          rw [← hs, mem_sortCands]
          exact hc2_mem
        rcases List.mem_cons.mp this with heq | hmem_rest
        · rw [← heq]
          exact candLE_refl _
        · exact (List.pairwise_cons.mp hsorted).1 _ hmem_rest

theorem buildRow_ok (a : String) (sp : Int) (ts : String) (f : FetchedRow)
    (r : SnapshotRow) (h : buildRow a sp ts f = .ok r) :
    r.timestamp = ts ∧ r.instrument = f.Instrument ∧ r.expiry = f.Expiry ∧
      expiryIsoOf r.expiry = some r.expiry_iso := by
  unfold buildRow at h
  split at h
  · cases h
  · rename_i dt hdt
    cases h
    refine ⟨rfl, rfl, rfl, ?_⟩
    simp only [expiryIsoOf, hdt, Option.map_some']

theorem buildRows_ok (a : String) (sp : Int) (ts : String) (df : List FetchedRow)
    (rows : List SnapshotRow) (h : buildRows a sp ts df = .ok rows) :
    (∀ r ∈ rows, r.timestamp = ts ∧ expiryIsoOf r.expiry = some r.expiry_iso) ∧
      (∀ f ∈ df, ∃ r ∈ rows, r.instrument = f.Instrument) := by
  induction df generalizing rows with
  | nil =>
    cases h
    simp
  | cons f fs ih =>
    unfold buildRows at h
    split at h
    · rename_i r0 rs hr0 hrs
      cases h
      obtain ⟨ih1, ih2⟩ := ih rs hrs
      obtain ⟨ht0, hi0, _, hiso0⟩ := buildRow_ok a sp ts f r0 hr0
      constructor
      · intro r hr
        rcases List.mem_cons.mp hr with heq | hr
        · rw [heq]
          exact ⟨ht0, hiso0⟩
        · exact ih1 r hr
      · intro g hg
        rcases List.mem_cons.mp hg with heq | hg
        · exact ⟨r0, List.mem_cons_self _ _, by rw [heq, hi0]⟩
        · obtain ⟨r, hrmem, hri⟩ := ih2 g hg
          exact ⟨r, List.mem_cons_of_mem _ hrmem, hri⟩
    · cases h
    · cases h

/-- Claim C8 counterexample: calling the snapshot writer with the
program's empty batch (`pd.DataFrame([])`, a DataFrame with no columns)
raises `KeyError: 'Expiry'` at the `expiry_iso` derivation instead of
returning without error, refuting "no exception is raised" and the
claimed no-op success. -/
theorem C8_empty_batch_cex :
    save_snapshot [] [] "BTC" 65000 "2025-11-28T10:00:01.123" =
      .error "KeyError: 'Expiry'" ∧
    save_snapshot [] [] "BTC" 65000 "2025-11-28T10:00:01.123" ≠
      .ok ([] : List SnapshotRow) :=
  ⟨rfl, by simp [save_snapshot]⟩

/-- Claim C8 (amended): an empty input batch never writes a row to the
live partition, but the call is not exception-free: the column-less
empty DataFrame makes the writer raise `KeyError: 'Expiry'` before
reaching the insert, so no success value is ever returned for an empty
batch; the pipeline-level no-op is achieved by the caller, which skips
empty fetch results before invoking the writer. -/
theorem C8_empty_batch_keyerror (live : List SnapshotRow) (a : String)
    (sp : Int) (ts : String) :
    save_snapshot live [] a sp ts = .error "KeyError: 'Expiry'" ∧
    ∀ live2, save_snapshot live [] a sp ts ≠ .ok live2 :=
  ⟨rfl, fun live2 h => by simp [save_snapshot] at h⟩

/-- Claim C3: running the retention sweep twice in immediate succession
(same wall clock, no intervening writes) moves zero rows and purges zero
rows on the second call, and leaves both partitions exactly as the first
call left them. -/
theorem C3_sweep_idempotent (today_str cutoff_ts archive_limit : String)
    (live archive : List SnapshotRow) :
    (maintain_db today_str cutoff_ts archive_limit
        (maintain_db today_str cutoff_ts archive_limit live archive).live
        (maintain_db today_str cutoff_ts archive_limit live archive).archive).moved = 0 ∧
    (maintain_db today_str cutoff_ts archive_limit
        (maintain_db today_str cutoff_ts archive_limit live archive).live
        (maintain_db today_str cutoff_ts archive_limit live archive).archive).purged = 0 ∧
    (maintain_db today_str cutoff_ts archive_limit
        (maintain_db today_str cutoff_ts archive_limit live archive).live
        (maintain_db today_str cutoff_ts archive_limit live archive).archive).live =
      (maintain_db today_str cutoff_ts archive_limit live archive).live ∧
    (maintain_db today_str cutoff_ts archive_limit
        (maintain_db today_str cutoff_ts archive_limit live archive).live
        (maintain_db today_str cutoff_ts archive_limit live archive).archive).archive =
      (maintain_db today_str cutoff_ts archive_limit live archive).archive := by
  have hff : ∀ (l : List SnapshotRow) (p : SnapshotRow → Bool),
      (l.filter fun r => !(p r)).filter p = [] := by
    intro l p
    induction l with
    | nil => rfl
    | cons x xs ih => cases hx : p x <;> simp [List.filter_cons, hx, ih]
  have hidem : ∀ (l : List SnapshotRow) (p : SnapshotRow → Bool),
      (l.filter p).filter p = l.filter p := by
    intro l p
    induction l with
    | nil => rfl
    | cons x xs ih => cases hx : p x <;> simp [List.filter_cons, hx, ih]
  refine ⟨?_, ?_, ?_, ?_⟩ <;>
    simp only [maintain_db, hff, hidem, List.append_nil, List.length_nil]

/-- Claim C4 (code bug): on every Friday the target calculator does not
implement the 08:00 UTC settlement cutover at all — `fetcher.py` imports
the `time` module but never `datetime.time`, so `settlement_time =
time(8, 0)` calls the module itself and Python raises
`TypeError: 'module' object is not callable` before the time of day is
even compared.  2025-11-28 is a Friday (weekday 4); both after and
before 08:00 UTC the call raises instead of returning `today + 7` or
`today`. -/
theorem C4_friday_settlement_typeerror :
    weekday ⟨2025, 11, 28⟩ = 4 ∧
    calculate_target_expiries ⟨⟨2025, 11, 28⟩, 10, 0⟩ =
      .error "TypeError: 'module' object is not callable" ∧
    calculate_target_expiries ⟨⟨2025, 11, 28⟩, 7, 59⟩ =
      .error "TypeError: 'module' object is not callable" :=
  ⟨rfl, rfl, rfl⟩

/-- Claim C5 counterexample: at 2025-11-29 (a Saturday) 10:00 UTC the
calculator returns the four codes in dict insertion order — near target
05DEC25 first, before the earlier month-end 30NOV25, and with 31DEC25
listed twice (next-month end and quarter end coincide) — so the output is
neither sorted ascending by date nor duplicate-free. -/
theorem C5_duplicate_unsorted_output :
    calculate_target_expiries ⟨⟨2025, 11, 29⟩, 10, 0⟩ =
      .ok ["05DEC25", "30NOV25", "31DEC25", "31DEC25"] ∧
    ¬ List.Nodup ["05DEC25", "30NOV25", "31DEC25", "31DEC25"] :=
  ⟨rfl, by decide⟩

/-- Claim C5 (amended): for every `now` whose date is not a Friday (on
Fridays the calculator raises, see C4), the output is the list
`[near, month_end, next_month_end, quarter_end]` in exactly that
insertion order, each formatted as the compact `DDMMMYY` code; duplicate
dates are not collapsed and the list is not sorted. -/
theorem C5_fixed_insertion_order (now : DateTimeUTC)
    (h : (4 + 7 - weekday now.date) % 7 ≠ 0) :
    calculate_target_expiries now =
      .ok ([nearTarget now.date, monthEndTarget now.date,
            nextMonthEndTarget now.date, quarterEndTarget now.date].map
        to_deribit_expiry) := by
  simp only [calculate_target_expiries, nearTarget, monthEndTarget,
    nextMonthEndTarget, quarterEndTarget]
  rw [if_neg (by simpa using h)]

theorem C5_fixed_insertion_order_witness :
    (4 + 7 - weekday ⟨2025, 10, 27⟩) % 7 ≠ 0 ∧
    calculate_target_expiries ⟨⟨2025, 10, 27⟩, 10, 0⟩ =
      .ok ([nearTarget ⟨2025, 10, 27⟩, monthEndTarget ⟨2025, 10, 27⟩,
            nextMonthEndTarget ⟨2025, 10, 27⟩, quarterEndTarget ⟨2025, 10, 27⟩].map
        to_deribit_expiry) :=
  ⟨by decide, C5_fixed_insertion_order ⟨⟨2025, 10, 27⟩, 10, 0⟩ (by decide)⟩

/-- Claim C9 counterexample: 2069-11-28 is a valid date, but its code
`28NOV69` parses back to 1969-11-28 under `strptime`'s two-digit-year
pivot, so `parse(format(d)) == d` fails on it. -/
theorem C9_roundtrip_cex :
    validDate ⟨2069, 11, 28⟩ ∧
    parseDeribitExpiry (to_deribit_expiry ⟨2069, 11, 28⟩) = some ⟨1969, 11, 28⟩ ∧
    parseDeribitExpiry (to_deribit_expiry ⟨2069, 11, 28⟩) ≠ some ⟨2069, 11, 28⟩ :=
  ⟨by decide, rfl, by decide⟩

/-- Claim C9 (amended): for every valid date whose year lies in the
1969–2068 window of the two-digit-year pivot, parsing the formatted
compact code yields the date back; and the `expiry_iso` stored for a row
is the deterministic pure function `expiryIsoOf` of its `expiry` code. -/
theorem C9_roundtrip_pivot_window (dt : Date) (h1 : validDate dt)
    (h2 : 1969 ≤ dt.year) (h3 : dt.year ≤ 2068)
    (a ts : String) (sp : Int) (f : FetchedRow) (r : SnapshotRow)
    (hr : buildRow a sp ts f = .ok r) :
    parseDeribitExpiry (to_deribit_expiry dt) = some dt ∧
    expiryIsoOf r.expiry = some r.expiry_iso :=
  ⟨parse_toDeribit_roundtrip dt h1 h2 h3, (buildRow_ok a sp ts f r hr).2.2.2⟩

theorem C9_roundtrip_pivot_window_witness :
    validDate ⟨2025, 11, 28⟩ ∧ 1969 ≤ (2025 : Nat) ∧ (2025 : Nat) ≤ 2068 ∧
    buildRow "BTC" 65000 "2025-11-28T10:00:01.123" sampleFetched = .ok sampleStored ∧
    (parseDeribitExpiry (to_deribit_expiry ⟨2025, 11, 28⟩) = some ⟨2025, 11, 28⟩ ∧
      expiryIsoOf sampleStored.expiry = some sampleStored.expiry_iso) :=
  ⟨by decide, by decide, by decide, rfl,
    C9_roundtrip_pivot_window ⟨2025, 11, 28⟩ (by decide) (by decide) (by decide)
      "BTC" "2025-11-28T10:00:01.123" 65000 sampleFetched sampleStored rfl⟩

/-- Claim C2: the live partition keeps `(timestamp, instrument)` unique —
a successful write preserves pairwise distinctness of the pairs, and
re-running a write at the exact same timestamp for an already-stored
instrument is rejected with an error, never silently duplicated. -/
theorem C2_pair_uniqueness (live : List SnapshotRow) (df : List FetchedRow)
    (a ts : String) (sp : Int) :
    (∀ live2, uniquePairs live → save_snapshot live df a sp ts = .ok live2 →
      uniquePairs live2) ∧
    (∀ r ∈ live, r.timestamp = ts →
      (∃ f ∈ df, f.Instrument = r.instrument) →
      ∃ msg, save_snapshot live df a sp ts = .error msg) := by
  constructor
  · intro live2 hu hok
    unfold save_snapshot at hok
    split at hok
    · cases hok
    · split at hok
      · cases hok
      · rename_i rows hrows
        split at hok
        · rename_i hins
          cases hok
          simp only [insertOK, Bool.and_eq_true, decide_eq_true_eq,
            List.all_eq_true, Bool.not_eq_true'] at hins
          obtain ⟨⟨hnodup, hdisj⟩, _⟩ := hins
          unfold uniquePairs at hu ⊢
          rw [List.map_append, List.nodup_append]
          refine ⟨hu, hnodup, ?_⟩
          intro k hk1 hk2
          obtain ⟨l, hlmem, hlk⟩ := List.mem_map.mp hk1
          obtain ⟨r, hrmem, hrk⟩ := List.mem_map.mp hk2
          have hfalse := List.any_eq_false.mp (hdisj r hrmem) l hlmem
          apply hfalse
          rw [beq_iff_eq, hlk, hrk]
        · cases hok
  · intro r hr hts hex
    obtain ⟨f, hf, hfi⟩ := hex
    cases df with
    | nil => cases hf
    | cons f0 fs =>
      cases hb : buildRows a sp ts (f0 :: fs) with
      | error msg => exact ⟨msg, by simp [save_snapshot, hb]⟩
      | ok rows =>
        obtain ⟨hall, hinst⟩ := buildRows_ok a sp ts (f0 :: fs) rows hb
        obtain ⟨r2, hr2mem, hr2i⟩ := hinst f hf
        have hkey : pairKey r = pairKey r2 := by
          unfold pairKey
          rw [(hall r2 hr2mem).1, hr2i, hfi, hts]
        have hins : insertOK live rows = false := by
          cases hins : insertOK live rows
          · rfl
          · exfalso
            simp only [insertOK, Bool.and_eq_true, List.all_eq_true] at hins
            obtain ⟨⟨_, hdisj⟩, _⟩ := hins
            have h2 := hdisj r2 hr2mem
            rw [Bool.not_eq_true'] at h2
            have h3 : (live.any fun l => pairKey l == pairKey r2) = true :=
              List.any_eq_true.mpr ⟨r, hr, beq_iff_eq.mpr hkey⟩
            rw [h3] at h2
            cases h2
        refine ⟨"IntegrityError: UNIQUE constraint failed: oi_snapshots.timestamp, oi_snapshots.instrument", ?_⟩
        simp [save_snapshot, hb, hins]

theorem C2_pair_uniqueness_witness :
    (uniquePairs ([] : List SnapshotRow) ∧
      save_snapshot [] [sampleFetched] "BTC" 65000 "2025-11-28T10:00:01.123" =
        .ok [sampleStored] ∧
      uniquePairs [sampleStored]) ∧
    (sampleStored ∈ [sampleStored] ∧
      sampleStored.timestamp = "2025-11-28T10:00:01.123" ∧
      (∃ f ∈ [sampleFetched], f.Instrument = sampleStored.instrument) ∧
      ∃ msg, save_snapshot [sampleStored] [sampleFetched] "BTC" 65000
          "2025-11-28T10:00:01.123" = .error msg) := by
  refine ⟨⟨by simp [uniquePairs], rfl, ?_⟩, ?_, rfl, ⟨sampleFetched, by simp, rfl⟩, ?_⟩
  · exact (C2_pair_uniqueness [] [sampleFetched] "BTC" "2025-11-28T10:00:01.123"
      65000).1 [sampleStored] (by simp [uniquePairs]) rfl
  · simp
  · exact (C2_pair_uniqueness [sampleStored] [sampleFetched] "BTC"
      "2025-11-28T10:00:01.123" 65000).2 sampleStored (by simp) rfl
      ⟨sampleFetched, by simp, rfl⟩

/-- Claim C6: every row persisted by one call to the snapshot writer
carries the same single batch timestamp `ts` (the instant taken at the
head of `save_snapshot`, not a per-row fetch time). -/
theorem C6_single_batch_timestamp (live : List SnapshotRow) (df : List FetchedRow)
    (a ts : String) (sp : Int) (live2 : List SnapshotRow)
    (h : save_snapshot live df a sp ts = .ok live2) :
    ∃ rows, live2 = live ++ rows ∧ ∀ r ∈ rows, r.timestamp = ts := by
  unfold save_snapshot at h
  split at h
  · cases h
  · split at h
    · cases h
    · rename_i rows hrows
      split at h
      · cases h
        exact ⟨rows, rfl, fun r hr => ((buildRows_ok a sp ts _ rows hrows).1 r hr).1⟩
      · cases h

theorem C6_single_batch_timestamp_witness :
    save_snapshot [] [sampleFetched] "BTC" 65000 "2025-11-28T10:00:01.123" =
      .ok [sampleStored] ∧
    ∃ rows, [sampleStored] = [] ++ rows ∧
      ∀ r ∈ rows, r.timestamp = "2025-11-28T10:00:01.123" :=
  ⟨rfl, C6_single_batch_timestamp [] [sampleFetched] "BTC"
    "2025-11-28T10:00:01.123" 65000 [sampleStored] rfl⟩

/-- Claim C1: for every target and listed map, a returned expiry is a
parsable candidate whose key `(distance to target ascending, aggregate
open interest descending)` is top-ranked among all parsable candidates;
in particular for target `28NOV25` and listed `{28NOV25: 100, 05DEC25:
500}` the resolver returns `28NOV25`, the closer date, despite its lower
open interest. -/
theorem C1_resolver_ranking (target : String) (listed : List (String × Int))
    (e : String) (h : select_best_expiry target listed = some e) :
    (∃ t d oi, parseDeribitExpiry target = some t ∧ (e, oi) ∈ listed ∧
      parseDeribitExpiry e = some d ∧
      ∀ e2 oi2 d2, (e2, oi2) ∈ listed → parseDeribitExpiry e2 = some d2 →
        rankLE t (d, oi) (d2, oi2)) ∧
    select_best_expiry "28NOV25" [("28NOV25", 100), ("05DEC25", 500)] =
      some "28NOV25" := by
  constructor
  · obtain ⟨t, d, oi, hpt, hmem, hpe, hmin⟩ := select_best_spec target listed e h
    refine ⟨t, d, oi, hpt, hmem, hpe, ?_⟩
    intro e2 oi2 d2 hmem2 hp2
    have hle := hmin e2 oi2 d2 hmem2 hp2
    simp only [candLE, Bool.or_eq_true, Bool.and_eq_true, decide_eq_true_eq] at hle
    unfold rankLE
    rcases hle with h1 | ⟨heq, h2⟩
    · exact Or.inl h1
    · refine Or.inr ⟨heq, ?_⟩
      rcases h2 with h2 | ⟨heq2, _⟩
      · omega
      · omega
  · rfl

theorem C1_resolver_ranking_witness :
    select_best_expiry "28NOV25" [("28NOV25", 100), ("05DEC25", 500)] =
      some "28NOV25" ∧
    ((∃ t d oi, parseDeribitExpiry "28NOV25" = some t ∧
        ("28NOV25", oi) ∈ [("28NOV25", (100 : Int)), ("05DEC25", 500)] ∧
        parseDeribitExpiry "28NOV25" = some d ∧
        ∀ e2 oi2 d2, (e2, oi2) ∈ [("28NOV25", (100 : Int)), ("05DEC25", 500)] →
          parseDeribitExpiry e2 = some d2 → rankLE t (d, oi) (d2, oi2)) ∧
      select_best_expiry "28NOV25" [("28NOV25", 100), ("05DEC25", 500)] =
        some "28NOV25") :=
  ⟨rfl, C1_resolver_ranking "28NOV25" [("28NOV25", 100), ("05DEC25", 500)]
    "28NOV25" rfl⟩

/-- When the target parses, the resolver is the head of the sorted
candidate list. -/
theorem select_best_some_form (target : String) (listed : List (String × Int))
    (t : Date) (hp : parseDeribitExpiry target = some t) :
    select_best_expiry target listed =
      match sortCands (listed.filterMap (candOf t)) with
      | [] => none
      | c :: _ => some c.2.2 := by
  unfold select_best_expiry
  rw [hp]

/-- Claim C7: the resolver returns `none` exactly when no usable
candidate exists — the target is unparsable, or the listed map is empty
or contains no parsable keys; equivalently, a single unparsable candidate
key never makes resolution fail while a parsable one remains. -/
theorem C7_none_iff_no_candidate (target : String) (listed : List (String × Int)) :
    select_best_expiry target listed = none ↔
      (parseDeribitExpiry target = none ∨
        ∀ p ∈ listed, parseDeribitExpiry p.1 = none) := by
  cases hp : parseDeribitExpiry target with
  | none =>
    have hsel : select_best_expiry target listed = none := by
      unfold select_best_expiry
      rw [hp]
    simp [hsel]
  | some t =>
    rw [select_best_some_form target listed t hp]
    have hiff : sortCands (listed.filterMap (candOf t)) = [] ↔
        ∀ p ∈ listed, parseDeribitExpiry p.1 = none := by
      rw [sortCands_eq_nil_iff, List.filterMap_eq_nil_iff]
      constructor
      · intro hall p hpmem
        exact (candOf_eq_none t p).mp (hall p hpmem)
      · intro hall p hpmem
        exact (candOf_eq_none t p).mpr (hall p hpmem)
    constructor
    · intro hnone
      refine Or.inr (hiff.mp ?_)
      rcases hcr : sortCands (listed.filterMap (candOf t)) with _ | ⟨c, rest⟩
      · rfl
      · rw [hcr] at hnone
        exact absurd hnone (by simp)
    · intro hor
      have hall : ∀ p ∈ listed, parseDeribitExpiry p.1 = none := by
        rcases hor with hbad | hall
        · cases hbad
        · exact hall
      rw [hiff.mpr hall]

/-- Claim C10: when parsable candidates tie on both distance to the
target and aggregate open interest, the resolver returns the
lexicographically smallest (by code points, Python string order) expiry
code among the tied candidates. -/
theorem C10_lex_tiebreak (target : String) (listed : List (String × Int))
    (e : String) (h : select_best_expiry target listed = some e) :
    ∃ t d oi, parseDeribitExpiry target = some t ∧ (e, oi) ∈ listed ∧
      parseDeribitExpiry e = some d ∧
      ∀ e2 oi2 d2, (e2, oi2) ∈ listed → parseDeribitExpiry e2 = some d2 →
        distDays d2 t = distDays d t → oi2 = oi → e = e2 ∨ strLt e e2 = true := by
  obtain ⟨t, d, oi, hpt, hmem, hpe, hmin⟩ := select_best_spec target listed e h
  refine ⟨t, d, oi, hpt, hmem, hpe, ?_⟩
  intro e2 oi2 d2 hmem2 hp2 hdist hoi
  have hle := hmin e2 oi2 d2 hmem2 hp2
  simp only [candLE, Bool.or_eq_true, Bool.and_eq_true, decide_eq_true_eq] at hle
  rcases hle with h1 | ⟨heq, h2⟩
  · omega
  · rcases h2 with h2 | ⟨heq2, h3⟩
    · exfalso
      omega
    · rcases h3 with h3 | h3
      · exact Or.inr h3
      · exact Or.inl h3

theorem C10_lex_tiebreak_witness :
    select_best_expiry "28NOV25" [("05DEC25", 100), ("21NOV25", 100)] =
      some "05DEC25" ∧
    ∃ t d oi, parseDeribitExpiry "28NOV25" = some t ∧
      ("05DEC25", oi) ∈ [("05DEC25", (100 : Int)), ("21NOV25", 100)] ∧
      parseDeribitExpiry "05DEC25" = some d ∧
      ∀ e2 oi2 d2, (e2, oi2) ∈ [("05DEC25", (100 : Int)), ("21NOV25", 100)] →
        parseDeribitExpiry e2 = some d2 →
        distDays d2 t = distDays d t → oi2 = oi →
        "05DEC25" = e2 ∨ strLt "05DEC25" e2 = true :=
  ⟨by decide, C10_lex_tiebreak "28NOV25" [("05DEC25", 100), ("21NOV25", 100)]
    "05DEC25" (by decide)⟩
